import Mathlib

/-!
# Verification of the Infuse-IoT cloud code-generation pipeline

Shallow embedding of `scripts/west_commands/cloudgen.py`: the extension-merge
layer, the field/array-suffix normalization passes, the KV flags derivation,
the RPC enum-erasure pass and the shared host-language type mapping, together
with theorems checking the specification's claims about them.

JSON documents are modelled as association lists (Python dicts preserve
insertion order; `dict.update` keeps the original position of an existing key
and appends new keys).  Numeric definition/command IDs appear in the JSON as
string keys and are compared via `int(key)`; they are modelled directly as
`Int` keys.  Python dictionary key accesses that can raise (`KeyError`,
`AttributeError`) are modelled with `Option`.  Python string methods
(`startswith`, `removeprefix`, slicing) are modelled on the character list of
the string so that they compute inside the kernel.
-/

set_option maxRecDepth 8192

namespace Cloudgen

/-- Boolean character-list prefix test (structural, kernel-computable). -/
def charListPrefix : List Char → List Char → Bool
  | [], _ => true
  | _ :: _, [] => false
  | c :: cs, d :: ds => decide (c = d) && charListPrefix cs ds

/-- Python `s.startswith(p)`. -/
def pyStartsWith (s p : String) : Bool :=
  charListPrefix p.data s.data

/-- Python slicing `s[n:]` (drop the first `n` characters). -/
def pyDrop (s : String) (n : Nat) : String :=
  String.mk (s.data.drop n)

/-- Python `s.removeprefix(p)`: drop `p` if it is a prefix, else return `s`
unchanged. -/
def pyRemovePrefix (s p : String) : String :=
  if pyStartsWith s p then pyDrop s p.length else s

/-- The value stored under a KV definition's derived `flags` key: either the
integer literal `0` or a `" | "`-joined string of flag constants. -/
inductive FlagsVal where
  | num (n : Int)
  | str (s : String)
  deriving Repr, DecidableEq

/-- A raw field descriptor plus the derived attributes the generator threads
back into the same dictionary.  Keys that may be absent in the JSON / not yet
set by an annotation pass are `Option`. -/
structure Field where
  name : String
  type : String
  num : Option Int := none
  array : Option String := none
  flexible : Option Bool := none
  flexible_type : Option String := none
  py_type : Option String := none
  deriving Repr, DecidableEq

/-- A struct or top-level definition entry (TDF/KV "definition").  The three
KV access flags model `d.get("reflect", False)` etc.; `flexible` and
`only_flexible` are derived keys absent until an annotation pass sets them. -/
structure Defn where
  fields : List Field := []
  name : String := ""
  reflect : Bool := false
  write_only : Bool := false
  read_only : Bool := false
  extension : Bool := false
  flexible : Option Bool := none
  only_flexible : Option Bool := none
  flags : Option FlagsVal := none
  deriving Repr, DecidableEq

/-- An RPC command.  `request_params` / `response_params` model the presence
or absence of those keys in the JSON object. -/
structure Command where
  request_params : Option (List Field) := none
  response_params : Option (List Field) := none
  extension : Bool := false
  flexible : Option Bool := none
  deriving Repr, DecidableEq

/-- An RPC enum entry: only its underlying storage type matters here. -/
structure EnumDef where
  type : String
  deriving Repr, DecidableEq

/-! ## Extension merge layer

`tdfgen` (lines 137–153), `kvgen` (lines 251–267) and `rpcgen`
(lines 369–385) each inline the same merge logic: assert every extension
definition/command ID is strictly above the family threshold and tag it,
assert every extension struct name is absent from the base structs and tag
it, then `dict.update` the base maps with the extension maps. -/

/-- A schema document: a structs map and a definitions/commands map, generic
in the entry type of the latter (TDF/KV: `Defn`, RPC: `Command`). -/
structure GenDoc (α : Type) where
  structs : List (String × Defn) := []
  definitions : List (Int × α) := []
  deriving Repr, DecidableEq

/-- Python `base.update(ext)` on insertion-ordered dicts: keys already in
`base` keep their position and receive the `ext` value; new keys are
appended in `ext` order. -/
def dictUpdate {α β : Type} [BEq α] (base ext : List (α × β)) : List (α × β) :=
  base.map (fun p =>
    match ext.lookup p.1 with
    | some v => (p.1, v)
    | none => p) ++
  ext.filter (fun p => (base.lookup p.1).isNone)

/-- The `assert int(id) > threshold` loop over the extension's
definitions/commands map. -/
def extIdCheck {α : Type} (threshold : Int) (defs : List (Int × α)) : Bool :=
  defs.all (fun p => threshold < p.1)

/-- The `assert struct_name not in base["structs"]` loop over the extension's
structs map. -/
def extStructCheck (baseStructs extStructs : List (String × Defn)) : Bool :=
  extStructs.all (fun p => (baseStructs.lookup p.1).isNone)

/-- Tag an extension struct entry (`struct_def["extension"] = True`). -/
def tagDefnExt (d : Defn) : Defn := { d with extension := true }

/-- Tag an extension command entry (`rpc_def["extension"] = True`). -/
def tagCommandExt (c : Command) : Command := { c with extension := true }

/-- The merge of a base document with a present extension document, generic
in the family threshold and the entry-tagging function.  A failed `assert`
aborts the run (`none`). -/
def mergeDocs {α : Type} (threshold : Int) (tag : α → α)
    (base ext : GenDoc α) : Option (GenDoc α) :=
  if extIdCheck threshold ext.definitions then
    if extStructCheck base.structs ext.structs then
      some
        { structs :=
            dictUpdate base.structs (ext.structs.map (fun p => (p.1, tagDefnExt p.2)))
          definitions :=
            dictUpdate base.definitions (ext.definitions.map (fun p => (p.1, tag p.2))) }
    else none
  else none

/-- `tdfgen` merge: TDF extension IDs must exceed 1024. -/
def tdfMerge (base ext : GenDoc Defn) : Option (GenDoc Defn) :=
  mergeDocs 1024 tagDefnExt base ext

/-- `kvgen` merge: KV extension IDs must exceed 32768. -/
def kvMerge (base ext : GenDoc Defn) : Option (GenDoc Defn) :=
  mergeDocs 32768 tagDefnExt base ext

/-- `rpcgen` merge: RPC extension command IDs must exceed 32768. -/
def rpcMerge (base ext : GenDoc Command) : Option (GenDoc Command) :=
  mergeDocs 32768 tagCommandExt base ext

/-! ## Array-suffix normalization

`cloudgen._array_postfix` (lines 115–122, modelled as `arrayPostfixShared`)
is shared by `tdfgen` and
`rpcgen`; `kvgen` carries a local variant (lines 292–300) that additionally
sets `field["flexible"] = True` for a zero-count array. -/

/-- The shared `cloudgen._array_postfix(d, field)`: always sets `field["array"]`;
for `num == 0` marks the owner flexible. -/
def arrayPostfixShared (d : Defn) (field : Field) : Defn × Field :=
  let field := { field with array := some "" }
  match field.num with
  | none => (d, field)
  | some n =>
    if n = 0 then
      ({ d with flexible := some true }, { field with array := some "[]" })
    else
      (d, { field with array := some ("[" ++ toString n ++ "]") })

/-- The local `kvgen.array_postfix(d, field)` helper: like
`arrayPostfixShared` but also marks the field itself flexible when `num == 0`. -/
def arrayPostfixKv (d : Defn) (field : Field) : Defn × Field :=
  let field := { field with array := some "" }
  match field.num with
  | none => (d, field)
  | some n =>
    if n = 0 then
      ({ d with flexible := some true },
       { field with array := some "[]", flexible := some true })
    else
      (d, { field with array := some ("[" ++ toString n ++ "]") })

/-- `self._array_postfix(d, field)` applied with an RPC command dict as the
owner (same body as `arrayPostfixShared`, owner type `Command`). -/
def arrayPostfixSharedCmd (c : Command) (field : Field) : Command × Field :=
  let field := { field with array := some "" }
  match field.num with
  | none => (c, field)
  | some n =>
    if n = 0 then
      ({ c with flexible := some true }, { field with array := some "[]" })
    else
      (c, { field with array := some ("[" ++ toString n ++ "]") })

/-- `for field in fields: post(d, field)`: thread the owner through a field
loop, collecting the annotated fields. -/
def arrayFieldsFold {ω : Type} (post : ω → Field → ω × Field) :
    ω → List Field → ω × List Field
  | d, [] => (d, [])
  | d, f :: rest =>
    ((arrayFieldsFold post (post d f).1 rest).1,
     (post d f).2 :: (arrayFieldsFold post (post d f).1 rest).2)

/-- Run a field-postfix helper over all of a struct/definition's fields,
storing the annotated fields back. -/
def defnArrayPass (post : Defn → Field → Defn × Field) (d : Defn) : Defn :=
  let r := arrayFieldsFold post d d.fields
  { r.1 with fields := r.2 }

/-- `tdfgen` per-definition annotation (lines 158–163): array postfix over
the fields, then `only_flexible = (len(fields) == 1 and
fields[0]["array"] == "[]")`. -/
def tdfDefnAnnotate (d : Defn) : Defn :=
  let d1 := defnArrayPass arrayPostfixShared d
  { d1 with
    only_flexible := some
      (match d1.fields with
       | [f] => decide (f.array = some "[]")
       | _ => false) }

/-- `tdfgen` annotation of the merged document (lines 155–163): array
postfix for every struct field, then every definition field plus
`only_flexible`.  No struct-flexibility propagation happens here. -/
def tdfAnnotate (doc : GenDoc Defn) : GenDoc Defn :=
  { structs := doc.structs.map (fun p => (p.1, defnArrayPass arrayPostfixShared p.2))
    definitions := doc.definitions.map (fun p => (p.1, tdfDefnAnnotate p.2)) }

/-- `kvgen` struct annotation (lines 302–304): the local `arrayPostfixKv`
over each struct's fields; nothing else (no propagation between structs). -/
def kvStructAnnotate (d : Defn) : Defn :=
  defnArrayPass arrayPostfixKv d

/-- `kvgen` definition field loop (lines 305–313): `arrayPostfixKv`, then if
the field's type is `struct <s>` and the (already annotated) struct `s` is
flexible, set `field["flexible_type"] = s` and mark the definition flexible.
The lookup `kv_defs["structs"][s]` raises `KeyError` for an unknown struct
name (`none`). -/
def kvDefnFieldsPass (structs : List (String × Defn)) :
    Defn → List Field → Option (Defn × List Field)
  | d, [] => some (d, [])
  | d, f :: rest =>
    if pyStartsWith ((arrayPostfixKv d f).2).type "struct " then
      match structs.lookup (pyRemovePrefix ((arrayPostfixKv d f).2).type "struct ") with
      | none => none
      | some sd =>
        if sd.flexible.getD false then
          (kvDefnFieldsPass structs
              { (arrayPostfixKv d f).1 with flexible := some true } rest).map
            (fun r =>
              (r.1, { (arrayPostfixKv d f).2 with
                        flexible_type :=
                          some (pyRemovePrefix ((arrayPostfixKv d f).2).type
                            "struct ") } :: r.2))
        else
          (kvDefnFieldsPass structs (arrayPostfixKv d f).1 rest).map
            (fun r => (r.1, (arrayPostfixKv d f).2 :: r.2))
    else
      (kvDefnFieldsPass structs (arrayPostfixKv d f).1 rest).map
        (fun r => (r.1, (arrayPostfixKv d f).2 :: r.2))

/-- `kvgen` per-definition annotation against the annotated structs map. -/
def kvDefnAnnotate (structs : List (String × Defn)) (d : Defn) : Option Defn :=
  (kvDefnFieldsPass structs d d.fields).map (fun r => { r.1 with fields := r.2 })

/-- `kvgen` annotation of the merged document (lines 302–313): all structs
first, then all definitions against the annotated structs. -/
def kvAnnotate (doc : GenDoc Defn) : Option (GenDoc Defn) :=
  let structs1 := doc.structs.map (fun p => (p.1, kvStructAnnotate p.2))
  (doc.definitions.mapM
      (fun p => (kvDefnAnnotate structs1 p.2).map (fun d => (p.1, d)))).map
    (fun defs1 => { structs := structs1, definitions := defs1 })

/-! ## KV flags derivation and definitions-collection handling -/

/-- The flag-constant list built by `kvgen` (lines 271–277): append
`KV_FLAGS_REFLECT`, `KV_FLAGS_WRITE_ONLY`, `KV_FLAGS_READ_ONLY` for each set
access flag, in that order. -/
def kvFlagsList (d : Defn) : List String :=
  (if d.reflect then ["KV_FLAGS_REFLECT"] else []) ++
  (if d.write_only then ["KV_FLAGS_WRITE_ONLY"] else []) ++
  (if d.read_only then ["KV_FLAGS_READ_ONLY"] else [])

/-- `kvgen` lines 278–281: `" | ".join(flags)` when any flag is set, the
integer literal `0` otherwise. -/
def kvFlags (d : Defn) : FlagsVal :=
  let flags := kvFlagsList d
  if flags.length > 0 then .str (String.intercalate " | " flags) else .num 0

/-- Store the derived flags on the definition (`d["flags"] = ...`). -/
def kvDefnFlags (d : Defn) : Defn :=
  { d with flags := some (kvFlags d) }

/-- The merged KV definitions collection as the generator might receive it:
a mapping keyed by (integer-valued) ID, or a plain list of definitions.
(The JSON keys are strings whose `int(...)` images are the `Int` keys used
here.) -/
inductive KvDefsColl where
  | map (entries : List (Int × Defn))
  | list (entries : List Defn)
  deriving Repr, DecidableEq

/-- `kv_defs["definitions"].items()` as used on line 269: only a mapping has
`.items()`; on a list the attribute access raises (`none`). -/
def kvDefsItems : KvDefsColl → Option (List (Int × Defn))
  | .map es => some es
  | .list _ => none

/-- Line 269, `{int(k): v for k, v in kv_defs["definitions"].items()}`,
followed by the `for d in kv_defs["definitions"].values()` flags loop
(lines 270–281). -/
def kvDefsFlagsPass (c : KvDefsColl) : Option (List (Int × Defn)) :=
  (kvDefsItems c).map (fun es => es.map (fun p => (p.1, kvDefnFlags p.2)))

/-! ## RPC passes -/

/-- `rpcgen` per-command array postfix (lines 390–394): iterate
`d["request_params"]` then `d["response_params"]` through `_array_postfix`;
a missing key raises `KeyError` (`none`). -/
def rpcCommandArrayPass (c : Command) : Option Command :=
  match c.request_params with
  | none => none
  | some req =>
    let r1 := arrayFieldsFold arrayPostfixSharedCmd c req
    match r1.1.response_params with
    | none => none
    | some resp =>
      let r2 := arrayFieldsFold arrayPostfixSharedCmd r1.1 resp
      some { r2.1 with request_params := some r1.2, response_params := some r2.2 }

/-- `rpcgen.enum_type_replace(field)` (lines 396–399): a field whose type
starts with `enum` has its type replaced by the underlying type of the named
enum; an unknown enum name raises `KeyError` (`none`); other fields are
untouched. -/
def enum_type_replace (enums : List (String × EnumDef)) (field : Field) :
    Option Field :=
  if pyStartsWith field.type "enum" then
    match enums.lookup (pyRemovePrefix field.type "enum ") with
    | some e => some { field with type := e.type }
    | none => none
  else some field

/-- `rpcgen` per-command enum erasure (lines 405–409): `enum_type_replace`
over `c["request_params"]` and `c["response_params"]`; a missing key raises
`KeyError` (`none`). -/
def rpcCommandEnumPass (enums : List (String × EnumDef)) (c : Command) :
    Option Command :=
  match c.request_params, c.response_params with
  | some req, some resp =>
    match req.mapM (enum_type_replace enums), resp.mapM (enum_type_replace enums) with
    | some req1, some resp1 =>
      some { c with request_params := some req1, response_params := some resp1 }
    | _, _ => none
  | _, _ => none

/-! ## Host-language (ctypes) type mapping -/

/-- The closed scalar table of `cloudgen._py_type` (lines 92–103). -/
def ctype_mapping : List (String × String) :=
  [("uint8_t", "ctypes.c_uint8"), ("uint16_t", "ctypes.c_uint16"),
   ("uint32_t", "ctypes.c_uint32"), ("uint64_t", "ctypes.c_uint64"),
   ("int8_t", "ctypes.c_int8"), ("int16_t", "ctypes.c_int16"),
   ("int32_t", "ctypes.c_int32"), ("int64_t", "ctypes.c_int64"),
   ("char", "ctypes.c_char"), ("float", "ctypes.c_float")]

/-- `cloudgen._py_type(field, struct_prefix)` (lines 91–113), shared by all
three generators (`tdfgen` and `kvgen` call it with `struct_prefix=True`,
`rpcgen` with `False`): a `struct` type maps to the struct name (optionally
`structs.`-qualified), a scalar keyword through the closed table (`KeyError`
on an unknown keyword, `none`); a present `num` yields `f"{num} * {base}"`. -/
def _py_type (field : Field) (structPrefix : Bool) : Option String :=
  let baseOpt :=
    if pyStartsWith field.type "struct" then
      some (if structPrefix then "structs." ++ pyDrop field.type 7
            else pyDrop field.type 7)
    else
      ctype_mapping.lookup field.type
  baseOpt.map (fun base =>
    match field.num with
    | some n => toString n ++ " * " ++ base
    | none => base)

/-- `f["py_type"] = self._py_type(f, prefix)` over a field sequence, as done
by all three generators (tdfgen line 214 and kvgen line 324 with
`structPrefix=True`, rpcgen lines 415 and 422 with `False`); an unknown
type aborts (`none`). -/
def pyTypePass (structPrefix : Bool) (fs : List Field) : Option (List Field) :=
  fs.mapM (fun f => (_py_type f structPrefix).map (fun t => { f with py_type := some t }))

/-! ## Concrete sample documents used by witnesses and counterexamples -/

/-- A one-field scalar definition. -/
def defnU8 : Defn := { fields := [{ name := "val", type := "uint8_t" }] }

/-- Another one-field scalar definition, distinguishable from `defnU8`. -/
def defnU16 : Defn := { fields := [{ name := "val2", type := "uint16_t" }] }

/-- A base struct used in merge examples. -/
def structW : Defn := { fields := [{ name := "x", type := "int16_t" }] }

/-- An extension struct used in merge examples. -/
def structX : Defn := { fields := [{ name := "y", type := "int32_t" }] }

/-- Base document: one struct, one definition with ID 10. -/
def mergeWBase : GenDoc Defn :=
  { structs := [("w", structW)], definitions := [(10, defnU8)] }

/-- Extension document: a fresh struct and definition ID 2000 (valid for the
TDF threshold 1024). -/
def mergeWExt : GenDoc Defn :=
  { structs := [("x", structX)], definitions := [(2000, defnU16)] }

/-- The merged document produced from `mergeWBase` and `mergeWExt`. -/
def mergeWResult : GenDoc Defn :=
  { structs := [("w", structW), ("x", tagDefnExt structX)]
    definitions := [(10, defnU8), (2000, tagDefnExt defnU16)] }

/-- A struct whose single field is a trailing variable-length array, so the
KV annotation marks it flexible. -/
def flexStruct : Defn := { fields := [{ name := "arr", type := "uint8_t", num := some 0 }] }

/-- A struct that embeds `flexStruct` (`struct b`) but has no `num == 0`
field of its own. -/
def nestStruct : Defn := { fields := [{ name := "inner", type := "struct b" }] }

/-- A KV definition that embeds the intermediate struct `struct a`. -/
def deepDefn : Defn := { fields := [{ name := "f", type := "struct a" }] }

/-- KV document with two-level struct nesting below the definition:
definition 1 → `struct a` → `struct b` (flexible). -/
def deepKvDoc : GenDoc Defn :=
  { structs := [("b", flexStruct), ("a", nestStruct)], definitions := [(1, deepDefn)] }

/-- TDF document in which definition 1 directly embeds the flexible
`struct b`. -/
def directTdfDoc : GenDoc Defn :=
  { structs := [("b", flexStruct)]
    definitions := [(1, { fields := [{ name := "f", type := "struct b" }] })] }

/-- A KV definition directly embedding the flexible `struct b`. -/
def directDefn : Defn := { fields := [{ name := "f", type := "struct b" }] }

/-- The result of the KV definition pass on `directDefn` against the
annotated `flexStruct`. -/
def directDefnResult : Defn :=
  { fields := [{ name := "f", type := "struct b", array := some ""
                 flexible_type := some "b" }]
    flexible := some true }

/-- An RPC command whose JSON object lacks the `request_params` key. -/
def cmdNoRequest : Command := { response_params := some [] }

/-- An RPC command with both parameter sequences present and empty. -/
def cmdEmpty : Command := { request_params := some [], response_params := some [] }

/-- An enums map declaring `Result` with underlying type `uint8_t`. -/
def enumsResult : List (String × EnumDef) := [("Result", { type := "uint8_t" })]

/-- An RPC field typed `enum Result`. -/
def fieldEnum : Field := { name := "status", type := "enum Result" }

/-- A scalar field, untouched by enum erasure. -/
def fieldScalar : Field := { name := "count", type := "uint16_t" }

/-- A scalar field with `num == 0` (flexible trailing array). -/
def fieldFlex : Field := { name := "x", type := "uint8_t", num := some 0 }

/-- A struct-typed field with `num == 0`. -/
def fieldFlexStruct : Field := { name := "pos", type := "struct vec3", num := some 0 }

/-- A scalar field with no `num` key. -/
def fieldScalarNoNum : Field := { name := "y", type := "uint16_t" }

/-- A scalar field with a fixed array count. -/
def fieldFixedArr : Field := { name := "z", type := "uint32_t", num := some 3 }

/-- A KV definition with `reflect` and `read_only` set. -/
def kvRRdefn : Defn := { reflect := true, read_only := true }

/-! ## Helper lemmas: string prefixes and association-list lookups -/

theorem charListPrefix_append (l m : List Char) : charListPrefix l (l ++ m) = true := by
  induction l with
  | nil => rfl
  | cons c cs ih => simp [charListPrefix, ih]

theorem pyStartsWith_append (p t : String) : pyStartsWith (p ++ t) p = true := by
  simp only [pyStartsWith, String.data_append]
  exact charListPrefix_append _ _

theorem pyDrop_length_append (p t : String) : pyDrop (p ++ t) p.length = t := by
  show String.mk (((p.data) ++ (t.data)).drop p.data.length) = t
  rw [List.drop_left]

theorem pyRemovePrefix_append (p t : String) : pyRemovePrefix (p ++ t) p = t := by
  simp [pyRemovePrefix, pyStartsWith_append, pyDrop_length_append]

theorem pyStartsWith_struct_space (s : String) :
    pyStartsWith ("struct " ++ s) "struct " = true :=
  pyStartsWith_append "struct " s

theorem pyStartsWith_enum_space (s : String) :
    pyStartsWith ("enum " ++ s) "enum" = true := by
  have h2 : ("enum" ++ " " : String) = "enum " := by decide
  have h : ("enum " ++ s) = "enum" ++ (" " ++ s) := by
    rw [← String.append_assoc, h2]
  rw [h]
  exact pyStartsWith_append "enum" (" " ++ s)

theorem lookup_append {α β : Type} [BEq α] (l₁ l₂ : List (α × β)) (k : α) :
    (l₁ ++ l₂).lookup k = (l₁.lookup k).or (l₂.lookup k) := by
  induction l₁ with
  | nil => simp [List.lookup]
  | cons p l ih =>
    obtain ⟨a, v⟩ := p
    cases hk : k == a <;> simp [List.lookup, hk, ih]

theorem mem_of_lookup_eq_some {α β : Type} [BEq α] [LawfulBEq α]
    {l : List (α × β)} {k : α} {v : β} (h : l.lookup k = some v) : (k, v) ∈ l := by
  induction l with
  | nil => simp [List.lookup] at h
  | cons p l ih =>
    obtain ⟨a, w⟩ := p
    cases hk : k == a with
    | true =>
      have hka : k = a := eq_of_beq hk
      subst hka
      simp [List.lookup, hk] at h
      subst h
      exact List.mem_cons_self _ _
    | false =>
      simp [List.lookup, hk] at h
      exact List.mem_cons_of_mem _ (ih h)

theorem lookup_isSome_of_mem {α β : Type} [BEq α] [LawfulBEq α]
    {p : α × β} {l : List (α × β)} (h : p ∈ l) : (l.lookup p.1).isSome = true := by
  induction l with
  | nil => simp at h
  | cons q l ih =>
    rcases List.mem_cons.mp h with rfl | hm
    · simp [List.lookup]
    · obtain ⟨a, w⟩ := q
      cases hk : p.1 == a with
      | true => simp [List.lookup, hk]
      | false => simpa [List.lookup, hk] using ih hm

theorem lookup_map_value {α β : Type} [BEq α] (g : β → β) (l : List (α × β)) (k : α) :
    ((l.map (fun p => (p.1, g p.2))).lookup k) = (l.lookup k).map g := by
  induction l with
  | nil => simp [List.lookup]
  | cons p l ih =>
    obtain ⟨a, v⟩ := p
    cases hk : k == a <;> simp [List.lookup, hk, ih]

theorem lookup_update_map {α β : Type} [BEq α] [LawfulBEq α]
    (b e : List (α × β)) (k : α) :
    ((b.map (fun p =>
        match e.lookup p.1 with
        | some v => (p.1, v)
        | none => p)).lookup k)
      = (b.lookup k).map (fun v => (e.lookup k).getD v) := by
  induction b with
  | nil => simp [List.lookup]
  | cons p l ih =>
    obtain ⟨a, v⟩ := p
    cases he : e.lookup a with
    | some w =>
      cases hk : k == a with
      | true =>
        have hka : k = a := eq_of_beq hk
        subst hka
        simp [List.lookup, hk, he]
      | false => simp [List.lookup, hk, he, ih]
    | none =>
      cases hk : k == a with
      | true =>
        have hka : k = a := eq_of_beq hk
        subst hka
        simp [List.lookup, hk, he]
      | false => simp [List.lookup, hk, he, ih]

theorem lookup_filter_of_none {α β : Type} [BEq α] [LawfulBEq α]
    (b e : List (α × β)) (k : α) (hb : b.lookup k = none) :
    (e.filter (fun p => (b.lookup p.1).isNone)).lookup k = e.lookup k := by
  induction e with
  | nil => simp
  | cons p l ih =>
    obtain ⟨a, v⟩ := p
    cases hk : k == a with
    | true =>
      have hka : k = a := eq_of_beq hk
      subst hka
      simp [List.filter, hb, List.lookup, hk]
    | false =>
      cases hp : (b.lookup a).isNone with
      | true => simp [List.filter, hp, List.lookup, hk, ih]
      | false => simp [List.filter, hp, List.lookup, hk, ih]

/-- Lookup in a Python `dict.update` result: the extension value wins where
present, the base value is untouched elsewhere. -/
theorem dictUpdate_lookup {α β : Type} [BEq α] [LawfulBEq α]
    (b e : List (α × β)) (k : α) :
    (dictUpdate b e).lookup k = (e.lookup k).or (b.lookup k) := by
  unfold dictUpdate
  rw [lookup_append, lookup_update_map]
  cases hb : b.lookup k with
  | none =>
    rw [lookup_filter_of_none b e k hb]
    cases he : e.lookup k <;> simp
  | some v =>
    cases he : e.lookup k <;> simp [he]

/-- With key-disjoint inputs, `dict.update` is plain concatenation: base
entries stay in place unmodified, extension entries are appended. -/
theorem dictUpdate_of_disjoint {α β : Type} [BEq α] [LawfulBEq α]
    (b e : List (α × β)) (h : ∀ p ∈ e, (b.lookup p.1).isNone = true) :
    dictUpdate b e = b ++ e := by
  have hb : ∀ p ∈ b, e.lookup p.1 = none := by
    intro p hp
    cases he : e.lookup p.1 with
    | none => rfl
    | some w =>
      have hm := mem_of_lookup_eq_some he
      have h1 : b.lookup p.1 = none := Option.isNone_iff_eq_none.mp (h (p.1, w) hm)
      have h2 := lookup_isSome_of_mem hp
      rw [h1] at h2
      simp at h2
  unfold dictUpdate
  congr 1
  · calc b.map (fun p =>
          match e.lookup p.1 with
          | some v => (p.1, v)
          | none => p)
        = b.map id := List.map_congr_left (fun p hp => by simp [hb p hp])
      _ = b := List.map_id b
  · exact List.filter_eq_self.mpr h

/-- `dict.update` preserves key uniqueness: the result's keys are the base
keys followed by the genuinely new extension keys. -/
theorem dictUpdate_keys_nodup {α β : Type} [BEq α] [LawfulBEq α]
    (b e : List (α × β))
    (hbn : (b.map Prod.fst).Nodup) (hen : (e.map Prod.fst).Nodup) :
    ((dictUpdate b e).map Prod.fst).Nodup := by
  unfold dictUpdate
  rw [List.map_append, List.nodup_append]
  have hkeys : (b.map (fun p =>
      match e.lookup p.1 with
      | some v => (p.1, v)
      | none => p)).map Prod.fst = b.map Prod.fst := by
    rw [List.map_map]
    exact List.map_congr_left (fun p hp => by
      cases he : e.lookup p.1 <;> simp [he])
  refine ⟨?_, ?_, ?_⟩
  · rw [hkeys]; exact hbn
  · exact List.Nodup.sublist
      (List.Sublist.map Prod.fst (List.filter_sublist e)) hen
  · intro a ha hae
    rw [hkeys] at ha
    obtain ⟨p, hp, hpa⟩ := List.mem_map.mp ha
    obtain ⟨q, hq, hqa⟩ := List.mem_map.mp hae
    have hqf := List.mem_filter.mp hq
    have hnone : (b.lookup q.1).isNone = true := by simpa using hqf.2
    have hsome : (b.lookup p.1).isSome = true := lookup_isSome_of_mem hp
    rw [hpa] at hsome
    rw [hqa] at hnone
    rw [Option.isNone_iff_eq_none.mp hnone] at hsome
    simp at hsome

/-! ## Helper lemmas: normalization passes -/

theorem arrayPostfixKv_type (d : Defn) (f : Field) :
    ((arrayPostfixKv d f).2).type = f.type := by
  unfold arrayPostfixKv
  cases hn : f.num with
  | none => simp [hn]
  | some n =>
    by_cases h0 : n = 0 <;> simp [hn, h0]

theorem arrayPostfixKv_fst_flexible_mono (d : Defn) (f : Field)
    (h : d.flexible = some true) : (arrayPostfixKv d f).1.flexible = some true := by
  unfold arrayPostfixKv
  cases hn : f.num with
  | none => simpa [hn] using h
  | some n =>
    by_cases h0 : n = 0 <;> simp [hn, h0, h]

theorem arrayPostfixKv_fst_of_not_flex (d : Defn) (f : Field)
    (h : f.num ≠ some 0) : (arrayPostfixKv d f).1 = d := by
  unfold arrayPostfixKv
  cases hn : f.num with
  | none => simp [hn]
  | some n =>
    have h0 : n ≠ 0 := by
      intro hc
      exact h (by rw [hn, hc])
    simp [hn, h0]

theorem arrayFieldsFold_no_flex (fs : List Field) (d : Defn)
    (h : ∀ f ∈ fs, f.num ≠ some 0) :
    (arrayFieldsFold arrayPostfixKv d fs).1.flexible = d.flexible := by
  induction fs generalizing d with
  | nil => rfl
  | cons f rest ih =>
    have h1 : (arrayPostfixKv d f).1 = d :=
      arrayPostfixKv_fst_of_not_flex d f (h f (List.mem_cons_self f rest))
    show (arrayFieldsFold arrayPostfixKv (arrayPostfixKv d f).1 rest).1.flexible = d.flexible
    rw [h1]
    exact ih d (fun g hg => h g (List.mem_cons_of_mem f hg))

theorem arrayPostfixSharedCmd_params (c : Command) (f : Field) :
    (arrayPostfixSharedCmd c f).1.request_params = c.request_params
    ∧ (arrayPostfixSharedCmd c f).1.response_params = c.response_params := by
  unfold arrayPostfixSharedCmd
  cases hn : f.num with
  | none => simp [hn]
  | some n =>
    by_cases h0 : n = 0 <;> simp [hn, h0]

theorem arrayFieldsFold_cmd_params (fs : List Field) (c : Command) :
    (arrayFieldsFold arrayPostfixSharedCmd c fs).1.request_params = c.request_params
    ∧ (arrayFieldsFold arrayPostfixSharedCmd c fs).1.response_params
        = c.response_params := by
  induction fs generalizing c with
  | nil => exact ⟨rfl, rfl⟩
  | cons f rest ih =>
    have h1 := arrayPostfixSharedCmd_params c f
    have h2 := ih (arrayPostfixSharedCmd c f).1
    exact ⟨by rw [show (arrayFieldsFold arrayPostfixSharedCmd c (f :: rest)).1
                    = (arrayFieldsFold arrayPostfixSharedCmd (arrayPostfixSharedCmd c f).1 rest).1
                  from rfl, h2.1, h1.1],
           by rw [show (arrayFieldsFold arrayPostfixSharedCmd c (f :: rest)).1
                    = (arrayFieldsFold arrayPostfixSharedCmd (arrayPostfixSharedCmd c f).1 rest).1
                  from rfl, h2.2, h1.2]⟩

theorem kvDefnFieldsPass_flexible_mono (structs : List (String × Defn)) :
    ∀ (fs : List Field) (d : Defn) (r : Defn × List Field),
      kvDefnFieldsPass structs d fs = some r → d.flexible = some true →
      r.1.flexible = some true := by
  intro fs
  induction fs with
  | nil =>
    intro d r h hd
    unfold kvDefnFieldsPass at h
    obtain rfl : (d, ([] : List Field)) = r := by simpa using h
    exact hd
  | cons f rest ih =>
    intro d r h hd
    have hmono := arrayPostfixKv_fst_flexible_mono d f hd
    unfold kvDefnFieldsPass at h
    by_cases hsp : pyStartsWith ((arrayPostfixKv d f).2).type "struct " = true
    · rw [if_pos hsp] at h
      cases hlk : structs.lookup (pyRemovePrefix ((arrayPostfixKv d f).2).type "struct ") with
      | none => rw [hlk] at h; simp at h
      | some sd =>
        rw [hlk] at h
        dsimp only at h
        by_cases hfl : sd.flexible.getD false = true
        · rw [if_pos hfl] at h
          obtain ⟨r1, hr1, hr⟩ := Option.map_eq_some'.mp h
          have := ih _ r1 hr1 rfl
          rw [← hr]
          exact this
        · rw [if_neg hfl] at h
          obtain ⟨r1, hr1, hr⟩ := Option.map_eq_some'.mp h
          have := ih _ r1 hr1 hmono
          rw [← hr]
          exact this
    · rw [if_neg hsp] at h
      obtain ⟨r1, hr1, hr⟩ := Option.map_eq_some'.mp h
      have := ih _ r1 hr1 hmono
      rw [← hr]
      exact this

theorem kvDefnFieldsPass_trigger (structs : List (String × Defn)) :
    ∀ (fs : List Field) (d : Defn) (r : Defn × List Field) (f : Field) (s : String)
      (sd : Defn), f ∈ fs → f.type = "struct " ++ s → structs.lookup s = some sd →
      sd.flexible = some true → kvDefnFieldsPass structs d fs = some r →
      r.1.flexible = some true := by
  intro fs
  induction fs with
  | nil =>
    intro d r f s sd hf
    simp at hf
  | cons g rest ih =>
    intro d r f s sd hf hty hlk hflex h
    unfold kvDefnFieldsPass at h
    rcases List.mem_cons.mp hf with rfl | hmem
    · -- the head field is the flexible-struct field: the pass takes the
      -- struct branch and marks the owner flexible
      have htyg : ((arrayPostfixKv d f).2).type = "struct " ++ s := by
        rw [arrayPostfixKv_type]; exact hty
      have hsp : pyStartsWith ((arrayPostfixKv d f).2).type "struct " = true := by
        rw [htyg]; exact pyStartsWith_struct_space s
      have hrp : pyRemovePrefix ((arrayPostfixKv d f).2).type "struct " = s := by
        rw [htyg]; exact pyRemovePrefix_append "struct " s
      rw [if_pos hsp, hrp, hlk] at h
      dsimp only at h
      have hfl : sd.flexible.getD false = true := by rw [hflex]; rfl
      rw [if_pos hfl] at h
      obtain ⟨r1, hr1, hr⟩ := Option.map_eq_some'.mp h
      have := kvDefnFieldsPass_flexible_mono structs rest _ r1 hr1 rfl
      rw [← hr]
      exact this
    · -- the flexible-struct field sits further down: recurse
      by_cases hsp : pyStartsWith ((arrayPostfixKv d g).2).type "struct " = true
      · rw [if_pos hsp] at h
        cases hlk2 : structs.lookup (pyRemovePrefix ((arrayPostfixKv d g).2).type "struct ") with
        | none => rw [hlk2] at h; simp at h
        | some sd2 =>
          rw [hlk2] at h
          dsimp only at h
          by_cases hfl2 : sd2.flexible.getD false = true
          · rw [if_pos hfl2] at h
            obtain ⟨r1, hr1, hr⟩ := Option.map_eq_some'.mp h
            have := ih _ r1 f s sd hmem hty hlk hflex hr1
            rw [← hr]
            exact this
          · rw [if_neg hfl2] at h
            obtain ⟨r1, hr1, hr⟩ := Option.map_eq_some'.mp h
            have := ih _ r1 f s sd hmem hty hlk hflex hr1
            rw [← hr]
            exact this
      · rw [if_neg hsp] at h
        obtain ⟨r1, hr1, hr⟩ := Option.map_eq_some'.mp h
        have := ih _ r1 f s sd hmem hty hlk hflex hr1
        rw [← hr]
        exact this

/-! ## Helper lemmas: merge outcomes -/

theorem extIdCheck_true_iff {α : Type} (thr : Int) (defs : List (Int × α)) :
    extIdCheck thr defs = true ↔ ∀ p ∈ defs, thr < p.1 := by
  simp [extIdCheck, List.all_eq_true]

theorem mergeDocs_abort_iff {α : Type} (thr : Int) (tag : α → α)
    (base ext : GenDoc α) :
    mergeDocs thr tag base ext = none ↔
      extIdCheck thr ext.definitions = false
      ∨ extStructCheck base.structs ext.structs = false := by
  unfold mergeDocs
  cases h1 : extIdCheck thr ext.definitions <;>
    cases h2 : extStructCheck base.structs ext.structs <;> simp

/-! ## Claim theorems -/

/-- C1: for every extension document merged into a base document, every
definition/command ID in the extension must be strictly greater than the
family threshold (1024 for TDF, 32768 for KV and RPC): an ID at or below the
threshold makes the merge abort, and the ID check passes exactly when every
ID is strictly above the threshold. -/
theorem C1_extension_id_threshold
    (baseT extT baseK extK : GenDoc Defn) (baseR extR : GenDoc Command) :
    ((∃ p ∈ extT.definitions, p.1 ≤ 1024) → tdfMerge baseT extT = none)
    ∧ (extIdCheck 1024 extT.definitions = true ↔ ∀ p ∈ extT.definitions, 1024 < p.1)
    ∧ ((∃ p ∈ extK.definitions, p.1 ≤ 32768) → kvMerge baseK extK = none)
    ∧ (extIdCheck 32768 extK.definitions = true ↔ ∀ p ∈ extK.definitions, 32768 < p.1)
    ∧ ((∃ p ∈ extR.definitions, p.1 ≤ 32768) → rpcMerge baseR extR = none)
    ∧ (extIdCheck 32768 extR.definitions = true ↔ ∀ p ∈ extR.definitions, 32768 < p.1) := by
  have key : ∀ (α : Type) (thr : Int) (tag : α → α) (base ext : GenDoc α),
      (∃ p ∈ ext.definitions, p.1 ≤ thr) → mergeDocs thr tag base ext = none := by
    intro α thr tag base ext ⟨p, hp, hle⟩
    refine (mergeDocs_abort_iff thr tag base ext).mpr (Or.inl ?_)
    cases hchk : extIdCheck thr ext.definitions with
    | false => rfl
    | true =>
      have := (extIdCheck_true_iff thr ext.definitions).mp hchk p hp
      omega
  exact ⟨key _ 1024 tagDefnExt baseT extT,
         extIdCheck_true_iff 1024 extT.definitions,
         key _ 32768 tagDefnExt baseK extK,
         extIdCheck_true_iff 32768 extK.definitions,
         key _ 32768 tagCommandExt baseR extR,
         extIdCheck_true_iff 32768 extR.definitions⟩

/-- C1 witness: merges with an extension ID exactly at the family threshold
abort for all three families. -/
theorem C1_extension_id_threshold_witness :
    tdfMerge mergeWBase { definitions := [(1024, defnU16)] } = none
    ∧ kvMerge mergeWBase { definitions := [(32768, defnU16)] } = none
    ∧ rpcMerge { } { definitions := [(32768, cmdEmpty)] } = none := by
  have h := C1_extension_id_threshold
    mergeWBase { definitions := [(1024, defnU16)] }
    mergeWBase { definitions := [(32768, defnU16)] }
    { } { definitions := [(32768, cmdEmpty)] }
  exact ⟨h.1 ⟨(1024, defnU16), by decide, by decide⟩,
         h.2.2.1 ⟨(32768, defnU16), by decide, by decide⟩,
         h.2.2.2.2.1 ⟨(32768, cmdEmpty), by decide, by decide⟩⟩

/-- C2 counterexample: a TDF extension definition with ID 2000 (above the
1024 threshold) whose ID equals a base definition ID passes both merge
checks, and `dict.update` then replaces the base entry with the tagged
extension entry, so the base entry is not present in the merged document. -/
theorem C2_counterexample :
    tdfMerge { definitions := [(2000, defnU8)] } { definitions := [(2000, defnU16)] }
      = some { definitions := [(2000, tagDefnExt defnU16)] }
    ∧ defnU8 ≠ tagDefnExt defnU16 := by decide

/-- C2 (amended): for every merge that succeeds, the structs map is the
disjoint union of the base structs (unmodified, in place) and the tagged
extension structs; the definitions/commands map contains every tagged
extension entry and every base entry whose ID does not occur in the
extension, unmodified — but an extension entry whose ID equals a base ID
replaces the base entry; IDs remain unique provided base and extension each
had unique IDs. -/
theorem C2_merge_shape {α : Type} (thr : Int) (tag : α → α) (base ext m : GenDoc α)
    (hm : mergeDocs thr tag base ext = some m) :
    m.structs = base.structs ++ ext.structs.map (fun p => (p.1, tagDefnExt p.2))
    ∧ (∀ k : Int, m.definitions.lookup k
        = ((ext.definitions.lookup k).map tag).or (base.definitions.lookup k))
    ∧ ((base.definitions.map Prod.fst).Nodup → (ext.definitions.map Prod.fst).Nodup →
        (m.definitions.map Prod.fst).Nodup) := by
  unfold mergeDocs at hm
  cases h1 : extIdCheck thr ext.definitions with
  | false => rw [h1] at hm; simp at hm
  | true =>
    cases h2 : extStructCheck base.structs ext.structs with
    | false => rw [h1, h2] at hm; simp at hm
    | true =>
      rw [h1, h2] at hm
      simp only [if_true] at hm
      obtain rfl : _ = m := Option.some.injEq _ _ ▸ hm
      refine ⟨?_, ?_, ?_⟩
      · have hdisj : ∀ p ∈ ext.structs.map (fun p => (p.1, tagDefnExt p.2)),
            (base.structs.lookup p.1).isNone = true := by
          intro p hp
          obtain ⟨q, hq, rfl⟩ := List.mem_map.mp hp
          have := extStructCheck
          have hall := List.all_eq_true.mp h2 q hq
          simpa using hall
        exact dictUpdate_of_disjoint base.structs _ hdisj
      · intro k
        rw [dictUpdate_lookup, lookup_map_value]
      · intro hbn hen
        refine dictUpdate_keys_nodup base.definitions _ hbn ?_
        rw [List.map_map]
        exact hen


/-- C2 witness: a concrete valid merge exhibiting the union shape, the
lookup characterization at ID 10, and unique merged IDs. -/
theorem C2_merge_shape_witness :
    mergeWResult.structs
        = mergeWBase.structs ++ mergeWExt.structs.map (fun p => (p.1, tagDefnExt p.2))
    ∧ mergeWResult.definitions.lookup 10
        = ((mergeWExt.definitions.lookup 10).map tagDefnExt).or
            (mergeWBase.definitions.lookup 10)
    ∧ (mergeWResult.definitions.map Prod.fst).Nodup := by
  have h := C2_merge_shape 1024 tagDefnExt mergeWBase mergeWExt mergeWResult (by decide)
  exact ⟨h.1, h.2.1 10, h.2.2 (by decide) (by decide)⟩

/-- C3 counterexample: a TDF base document containing definition ID 2000
(above the 1024 threshold) merges with a valid extension without aborting,
so base IDs are not checked at merge time. -/
theorem C3_counterexample :
    (tdfMerge { definitions := [(2000, defnU8)] }
        { definitions := [(5000, defnU16)] }).isSome = true := by decide

/-- C3 (amended): the merge validates only the extension document: it aborts
exactly when an extension ID fails the threshold check or an extension
struct name collides with a base struct name; base definition/command IDs
are never compared against the family threshold. -/
theorem C3_base_ids_unchecked
    (baseT extT baseK extK : GenDoc Defn) (baseR extR : GenDoc Command) :
    (tdfMerge baseT extT = none ↔
       extIdCheck 1024 extT.definitions = false
       ∨ extStructCheck baseT.structs extT.structs = false)
    ∧ (kvMerge baseK extK = none ↔
       extIdCheck 32768 extK.definitions = false
       ∨ extStructCheck baseK.structs extK.structs = false)
    ∧ (rpcMerge baseR extR = none ↔
       extIdCheck 32768 extR.definitions = false
       ∨ extStructCheck baseR.structs extR.structs = false) :=
  ⟨mergeDocs_abort_iff 1024 tagDefnExt baseT extT,
   mergeDocs_abort_iff 32768 tagDefnExt baseK extK,
   mergeDocs_abort_iff 32768 tagCommandExt baseR extR⟩

/-- C4 counterexample: the KV generator's definitions handling (the
`.items()` rebuild plus the `.values()` flags loop) fails on a list
representation instead of iterating it, while the map representation is
processed. -/
theorem C4_counterexample :
    kvDefsFlagsPass (KvDefsColl.list [defnU8]) = none
    ∧ (kvDefsFlagsPass (KvDefsColl.map [(7, defnU8)])).isSome = true := by decide

/-- C4 (amended): the KV generator requires the merged definitions
collection to be a mapping — it rebuilds it via `.items()` and then iterates
the values, deriving flags per definition; a list representation raises
(`AttributeError`) rather than being iterated. -/
theorem C4_map_only (es : List (Int × Defn)) (ds : List Defn) :
    (∃ l, kvDefsFlagsPass (KvDefsColl.map es) = some l
        ∧ ∀ p ∈ es, (p.1, kvDefnFlags p.2) ∈ l)
    ∧ kvDefsFlagsPass (KvDefsColl.list ds) = none := by
  refine ⟨⟨es.map (fun p => (p.1, kvDefnFlags p.2)), ?_, ?_⟩, rfl⟩
  · rfl
  · intro p hp
    exact List.mem_map.mpr ⟨p, hp, rfl⟩

/-- C5 counterexample: an RPC command lacking the `request_params` key makes
both the array-suffix pass and the enum-erasure pass fail (`KeyError`)
instead of completing over an empty sequence. -/
theorem C5_counterexample :
    rpcCommandArrayPass cmdNoRequest = none
    ∧ rpcCommandEnumPass enumsResult cmdNoRequest = none := by decide

/-- C5 (amended): a command missing `request_params` or `response_params`
makes both the array-suffix pass and the enum-erasure pass abort
(`KeyError`) rather than treating the missing sequence as empty.  What does
round-trip: the array-suffix pass completes whenever both keys are present,
and the enum-erasure pass over two empty parameter sequences completes and
returns the command unchanged.  (With both keys present but a non-empty
sequence, enum erasure can still abort on an enum name absent from the
enums map — `rpc_defs["enums"][n]`, lines 397–399 — so no blanket
completion holds for it.) -/
theorem C5_params_required (enums : List (String × EnumDef)) (c : Command) :
    (c.request_params = none ∨ c.response_params = none →
       rpcCommandArrayPass c = none ∧ rpcCommandEnumPass enums c = none)
    ∧ (c.request_params.isSome = true → c.response_params.isSome = true →
       (rpcCommandArrayPass c).isSome = true)
    ∧ (c.request_params = some [] → c.response_params = some [] →
       rpcCommandEnumPass enums c = some c) := by
  refine ⟨?_, ?_, ?_⟩
  · rintro (h | h)
    · constructor
      · unfold rpcCommandArrayPass
        rw [h]
      · unfold rpcCommandEnumPass
        rw [h]
    · constructor
      · unfold rpcCommandArrayPass
        cases hreq : c.request_params with
        | none => rfl
        | some req =>
          dsimp only
          rw [(arrayFieldsFold_cmd_params req c).2, h]
      · unfold rpcCommandEnumPass
        rw [h]
        cases hreq : c.request_params <;> rfl
  · intro h1 h2
    obtain ⟨req, hreq⟩ := Option.isSome_iff_exists.mp h1
    obtain ⟨resp, hresp⟩ := Option.isSome_iff_exists.mp h2
    unfold rpcCommandArrayPass
    rw [hreq]
    dsimp only
    rw [(arrayFieldsFold_cmd_params req c).2, hresp]
    rfl
  · intro h1 h2
    obtain ⟨rq, rs, ex, fl⟩ := c
    simp only at h1 h2
    subst h1
    subst h2
    rfl

/-- C5 witness: the passes fail on a command without `request_params` and
succeed on a command with empty parameter sequences. -/
theorem C5_params_required_witness :
    (rpcCommandArrayPass cmdNoRequest = none
      ∧ rpcCommandEnumPass enumsResult cmdNoRequest = none)
    ∧ (rpcCommandArrayPass cmdEmpty).isSome = true
    ∧ rpcCommandEnumPass enumsResult cmdEmpty = some cmdEmpty := by
  have h1 := C5_params_required enumsResult cmdNoRequest
  have h2 := C5_params_required enumsResult cmdEmpty
  exact ⟨h1.1 (Or.inl rfl), h2.2.1 rfl rfl, h2.2.2 rfl rfl⟩

/-- C6 counterexample: the shared `_array_postfix` helper used by the TDF and
RPC generators takes the `num == 0` branch (suffix `[]`, owner flexible) but
never sets the field's own `flexible` key, so the field is not marked
flexible in those families. -/
theorem C6_counterexample :
    fieldFlex.num = some 0
    ∧ ((arrayPostfixShared defnU8 fieldFlex).2).flexible = none
    ∧ ((arrayPostfixShared defnU8 fieldFlex).2).array = some "[]"
    ∧ ((arrayPostfixShared defnU8 fieldFlex).1).flexible = some true := by decide

/-- C6 (amended): for every field, array-suffix normalization yields suffix
`""` and no flexibility change when `num` is absent; suffix `"[]"` and owner
`flexible = true` when `num == 0`, with the field itself additionally marked
flexible only by the KV generator's local helper (the shared TDF/RPC helper
leaves the field's flexible key unset); and suffix `"[num]"` when
`num = k ≠ 0`. -/
theorem C6_array_suffix (d : Defn) (f : Field) :
    (f.num = none →
       arrayPostfixShared d f = (d, { f with array := some "" })
       ∧ arrayPostfixKv d f = (d, { f with array := some "" }))
    ∧ (f.num = some 0 →
       arrayPostfixShared d f = ({ d with flexible := some true }, { f with array := some "[]" })
       ∧ arrayPostfixKv d f
           = ({ d with flexible := some true },
              { f with array := some "[]", flexible := some true }))
    ∧ (∀ n : Int, f.num = some n → n ≠ 0 →
       arrayPostfixShared d f = (d, { f with array := some ("[" ++ toString n ++ "]") })
       ∧ arrayPostfixKv d f = (d, { f with array := some ("[" ++ toString n ++ "]") })) := by
  refine ⟨fun h => ?_, fun h => ?_, fun n h hn => ?_⟩
  · constructor <;> simp [arrayPostfixShared, arrayPostfixKv, h]
  · constructor <;> simp [arrayPostfixShared, arrayPostfixKv, h]
  · constructor <;> simp [arrayPostfixShared, arrayPostfixKv, h, hn]

/-- C6 witness: the three `num` cases evaluated at concrete fields. -/
theorem C6_array_suffix_witness :
    arrayPostfixShared defnU8 fieldScalarNoNum
        = (defnU8, { fieldScalarNoNum with array := some "" })
    ∧ arrayPostfixKv defnU8 fieldFlex
        = ({ defnU8 with flexible := some true },
           { fieldFlex with array := some "[]", flexible := some true })
    ∧ arrayPostfixShared defnU8 fieldFixedArr
        = (defnU8, { fieldFixedArr with array := some ("[" ++ toString (3 : Int) ++ "]") }) := by
  have h1 := C6_array_suffix defnU8 fieldScalarNoNum
  have h2 := C6_array_suffix defnU8 fieldFlex
  have h3 := C6_array_suffix defnU8 fieldFixedArr
  exact ⟨(h1.1 rfl).1, (h2.2.1 rfl).2, (h3.2.2 3 rfl (by decide)).1⟩

/-- C7 counterexample: in the KV family, struct `b` is flexible, struct `a`
embeds `struct b` yet is not marked flexible, and definition 1 embedding
`struct a` is not marked flexible either — flexibility does not propagate
transitively through nesting; and in the TDF family a definition directly
embedding the flexible `struct b` is not marked flexible at all. -/
theorem C7_counterexample :
    (kvAnnotate deepKvDoc).map
        (fun m => ((m.structs.lookup "b").map Defn.flexible,
                   (m.structs.lookup "a").map Defn.flexible,
                   (m.definitions.lookup 1).map Defn.flexible))
      = some (some (some true), some none, some none)
    ∧ ((tdfAnnotate directTdfDoc).structs.lookup "b").map Defn.flexible
        = some (some true)
    ∧ ((tdfAnnotate directTdfDoc).definitions.lookup 1).map Defn.flexible
        = some none := by decide

/-- C7 (amended): flexibility propagation happens only in the KV generator
and only one level deep: a KV definition directly containing a field whose
type names a flexible (annotated) struct is marked flexible; the KV struct
pass itself never marks a struct flexible except through its own `num == 0`
fields, so struct-into-struct nesting does not propagate. -/
theorem C7_one_level_propagation (structs : List (String × Defn)) (d : Defn) :
    (∀ (r : Defn) (f : Field) (s : String) (sd : Defn),
       f ∈ d.fields → f.type = "struct " ++ s → structs.lookup s = some sd →
       sd.flexible = some true → kvDefnAnnotate structs d = some r →
       r.flexible = some true)
    ∧ ((∀ f ∈ d.fields, f.num ≠ some 0) →
       (kvStructAnnotate d).flexible = d.flexible) := by
  constructor
  · intro r f s sd hf hty hlk hflex hr
    unfold kvDefnAnnotate at hr
    obtain ⟨r1, hr1, hrr⟩ := Option.map_eq_some'.mp hr
    have hflx := kvDefnFieldsPass_trigger structs d.fields d r1 f s sd hf hty hlk hflex hr1
    rw [← hrr]
    exact hflx
  · intro h
    exact arrayFieldsFold_no_flex d.fields d h

/-- C7 witness: one-level propagation fires on a definition directly
embedding the flexible struct, and the struct pass leaves a purely
struct-typed struct unmarked. -/
theorem C7_one_level_propagation_witness :
    directDefnResult.flexible = some true
    ∧ (kvStructAnnotate nestStruct).flexible = nestStruct.flexible := by
  have h1 := C7_one_level_propagation [("b", kvStructAnnotate flexStruct)] directDefn
  have h2 := C7_one_level_propagation [] nestStruct
  exact ⟨h1.1 directDefnResult { name := "f", type := "struct b" } "b"
           (kvStructAnnotate flexStruct) (by decide) (by decide) (by decide)
           (by decide) (by decide),
         h2.2 (by decide)⟩

/-- C8: the derived KV `flags` value is the integer literal `0` when none of
`reflect`, `write_only`, `read_only` is set; otherwise it is the `" | "`-join
of the flag-constant list, which contains exactly the constants
corresponding to the set flags, each at most once. -/
theorem C8_flags (d : Defn) :
    (d.reflect = false ∧ d.write_only = false ∧ d.read_only = false →
       kvFlags d = FlagsVal.num 0)
    ∧ ((d.reflect = true ∨ d.write_only = true ∨ d.read_only = true) →
       kvFlags d = FlagsVal.str (String.intercalate " | " (kvFlagsList d)))
    ∧ (kvFlagsList d).Nodup
    ∧ ("KV_FLAGS_REFLECT" ∈ kvFlagsList d ↔ d.reflect = true)
    ∧ ("KV_FLAGS_WRITE_ONLY" ∈ kvFlagsList d ↔ d.write_only = true)
    ∧ ("KV_FLAGS_READ_ONLY" ∈ kvFlagsList d ↔ d.read_only = true)
    ∧ (∀ s ∈ kvFlagsList d,
        s = "KV_FLAGS_REFLECT" ∨ s = "KV_FLAGS_WRITE_ONLY"
        ∨ s = "KV_FLAGS_READ_ONLY") := by
  cases hr : d.reflect <;> cases hw : d.write_only <;> cases ho : d.read_only <;>
    refine ⟨?_, ?_, ?_, ?_, ?_, ?_, ?_⟩ <;>
      simp [kvFlags, kvFlagsList, hr, hw, ho]

/-- C8 witness: no flags set gives the literal `0`; `reflect` with
`read_only` gives the joined flag string. -/
theorem C8_flags_witness :
    kvFlags { } = FlagsVal.num 0
    ∧ kvFlags kvRRdefn
        = FlagsVal.str (String.intercalate " | " (kvFlagsList kvRRdefn)) :=
  ⟨(C8_flags { }).1 ⟨rfl, rfl, rfl⟩, (C8_flags kvRRdefn).2.1 (Or.inl rfl)⟩

/-- C9: for every RPC field whose declared type is `enum E` with `E` present
in the enums map, enum erasure rewrites the field's type to E's declared
underlying storage type (keeping everything else); a field whose type does
not start with `enum` is returned unchanged. -/
theorem C9_enum_erasure (enums : List (String × EnumDef)) (f : Field) :
    (∀ (E : String) (e : EnumDef), f.type = "enum " ++ E → enums.lookup E = some e →
       enum_type_replace enums f = some { f with type := e.type })
    ∧ (pyStartsWith f.type "enum" = false → enum_type_replace enums f = some f) := by
  constructor
  · intro E e hty hlk
    unfold enum_type_replace
    rw [hty, pyStartsWith_enum_space E]
    rw [pyRemovePrefix_append "enum " E, hlk]
    rfl
  · intro h
    simp [enum_type_replace, h]

/-- C9 witness: the spec's scenario (`enum Result` with underlying
`uint8_t`) and an untouched scalar field. -/
theorem C9_enum_erasure_witness :
    enum_type_replace enumsResult fieldEnum
      = some { fieldEnum with type := "uint8_t" }
    ∧ enum_type_replace enumsResult fieldScalar = some fieldScalar := by
  have h1 := C9_enum_erasure enumsResult fieldEnum
  have h2 := C9_enum_erasure enumsResult fieldScalar
  exact ⟨h1.1 "Result" { type := "uint8_t" } (by decide) (by decide),
         h2.2 (by decide)⟩

/-- C10: for every field whose base host-language type resolves to `base`,
a present `num = n` produces the py-type `f"{n} * {base}"`; in particular
`num == 0` produces `"0 * <base>"`, and the py-type pass stores exactly that
string on the field, under both the `structPrefix=True` (TDF/KV) and
`structPrefix=False` (RPC) call modes covered by the `sp` argument. -/
theorem C10_py_type (f : Field) (sp : Bool) (base : String)
    (hbase : _py_type { f with num := none } sp = some base) :
    (∀ n : Int, f.num = some n → _py_type f sp = some (toString n ++ " * " ++ base))
    ∧ (f.num = some 0 → _py_type f sp = some ("0 * " ++ base))
    ∧ (f.num = some 0 → pyTypePass sp [f]
        = some [{ f with py_type := some ("0 * " ++ base) }]) := by
  have hB : (if pyStartsWith f.type "struct" = true
        then some (if sp then "structs." ++ pyDrop f.type 7 else pyDrop f.type 7)
        else ctype_mapping.lookup f.type) = some base := by
    unfold _py_type at hbase
    dsimp only at hbase
    cases hc : (if pyStartsWith f.type "struct" = true
        then some (if sp then "structs." ++ pyDrop f.type 7 else pyDrop f.type 7)
        else ctype_mapping.lookup f.type) with
    | none => rw [hc] at hbase; simp at hbase
    | some b =>
      rw [hc] at hbase
      simp only [Option.map_some'] at hbase
      exact hbase
  have main : ∀ n : Int, f.num = some n →
      _py_type f sp = some (toString n ++ " * " ++ base) := by
    intro n hn
    unfold _py_type
    dsimp only
    rw [hB, hn]
    rfl
  have h0 : f.num = some 0 → _py_type f sp = some ("0 * " ++ base) := by
    intro hn
    have := main 0 hn
    rwa [show toString (0 : Int) = "0" by decide] at this
  refine ⟨main, h0, fun hn => ?_⟩
  unfold pyTypePass
  rw [List.mapM_cons, List.mapM_nil, h0 hn]
  rfl

/-- C10 witness: a `num == 0` scalar field maps to `"0 * ctypes.c_uint8"`
(prefixed mode) and a `num == 0` struct field maps to `"0 * vec3"`
(unprefixed mode); the py-type pass stores the zero-length array type. -/
theorem C10_py_type_witness :
    _py_type fieldFlex true = some ("0 * " ++ "ctypes.c_uint8")
    ∧ _py_type fieldFlexStruct false = some ("0 * " ++ "vec3")
    ∧ pyTypePass true [fieldFlex]
        = some [{ fieldFlex with py_type := some ("0 * " ++ "ctypes.c_uint8") }] := by
  have h1 := C10_py_type fieldFlex true "ctypes.c_uint8" (by decide)
  have h2 := C10_py_type fieldFlexStruct false "vec3" (by decide)
  exact ⟨h1.2.1 rfl, h2.2.1 rfl, h1.2.2 rfl⟩

end Cloudgen
